import Mathlib

/-!
Shallow embedding of the sigil task-execution runtime
(src/runtime/task_runner.rs, src/error.rs).

Modelling conventions:
* `HashMap<String, V>` becomes an association list `List (String × V)`;
  its (unspecified) iteration order is the list order, `insert` replaces
  the binding at an existing key in place, `contains_key`/`get` is `hmGet`.
* `DateTime<Utc>` becomes `Nat` (only ordering and equality matter).
* `Uuid` becomes its rendered `String` form (lowercase hyphenated, as the
  crate's `Display` produces for file names).
* File-system state directories become `Option StateDir`: `none` models a
  directory that does not exist; a `StateDir` is a list of file entries,
  each carrying a filename stem, an extension, and `Option TaskInstance`
  content where `none` models a record that fails to deserialize.
* Child-process execution is an oracle `run : SpawnedCommand → ProcOutcome`
  supplied as an argument; the embedding records exactly which command the
  code would spawn.
* Clock reads (`Utc::now()`) and fresh identifiers (`Uuid::new_v4()`) are
  explicit arguments.
-/

/-- Rust `enum ParameterType` in task_runner.rs. -/
inductive ParameterType
  | String
  | Integer
  | Boolean
  | Float
  | Path
  | Url
deriving DecidableEq

/-- Rust `struct TaskParameter` in task_runner.rs. -/
structure TaskParameter where
  description : String
  required : Bool
  default_value : Option String
  parameter_type : ParameterType
deriving DecidableEq

/-- Rust `enum TaskCommand` in task_runner.rs. -/
inductive TaskCommand
  | shell (script : String)
  | system (command : String) (args : List String)
  | module (module : String) (action : String) (params : List (String × String))
deriving DecidableEq

/-- Rust `struct TaskDefinition` in task_runner.rs. -/
structure TaskDefinition where
  name : String
  description : Option String
  command : TaskCommand
  parameters : List (String × TaskParameter)
  timeout_seconds : Option Nat
  retry_count : Option Nat
  environment : Option (List (String × String))
  working_directory : Option String
deriving DecidableEq

/-- Rust `enum TaskStatus` in task_runner.rs. -/
inductive TaskStatus
  | Pending
  | Running
  | Completed
  | Failed
  | Cancelled
  | Retrying
deriving DecidableEq

/-- Rust `struct TaskInstance` in task_runner.rs. -/
structure TaskInstance where
  id : String
  definition_name : String
  status : TaskStatus
  parameters : List (String × String)
  created_at : Nat
  started_at : Option Nat
  completed_at : Option Nat
  output : Option String
  error : Option String
  retry_count : Nat
deriving DecidableEq

/-- The `SigilError` variants reachable from the task runner (error.rs);
`Serde` stands for the `serde_json::Error` conversion used when a record
fails to deserialize on the by-id load path. -/
inductive SigilError
  | TaskExecution (message : String)
  | ResourceNotFound (resource : String)
  | Serde (message : String)
deriving DecidableEq

/-- The `Display` rendering of `SigilError` (the `#[error(...)]` attributes
in error.rs), used by `e.to_string()` in `execute_task_instance`. -/
def SigilError.render : SigilError → String
  | .TaskExecution m => "Task execution failed: " ++ m
  | .ResourceNotFound r => "Resource not found: " ++ r
  | .Serde m => "Serialization error: " ++ m

/-- `HashMap::get` / `contains_key` over the association-list model. -/
def hmGet {α : Type} : List (String × α) → String → Option α
  | [], _ => none
  | (k, v) :: rest, key => if k = key then some v else hmGet rest key

/-- `HashMap::insert` over the association-list model: replaces the
binding at an existing key in place, otherwise appends. -/
def hmInsert {α : Type} : List (String × α) → String → α → List (String × α)
  | [], key, v => [(key, v)]
  | (k, w) :: rest, key, v =>
      if k = key then (key, v) :: rest else (k, w) :: hmInsert rest key v

/-- Rust `str::split_once('=')`: split at the first `=`, `none` when the
separator is absent. -/
def splitOnceEqAux : List Char → List Char → Option (String × String)
  | _, [] => none
  | acc, c :: rest =>
      if c = '=' then some (String.mk acc.reverse, String.mk rest)
      else splitOnceEqAux (c :: acc) rest

/-- Rust `param.split_once('=')` on a whole string. -/
def split_once_eq (s : String) : Option (String × String) :=
  splitOnceEqAux [] s.data

/-- Loop body of `parse_parameters` in task_runner.rs: accumulate
`key=value` tokens into the map, failing on the first token without `=`. -/
def parse_parameters_go (acc : List (String × String)) :
    List String → Except SigilError (List (String × String))
  | [] => .ok acc
  | p :: rest =>
      match split_once_eq p with
      | some (key, value) => parse_parameters_go (hmInsert acc key value) rest
      | none =>
          .error (.TaskExecution
            ("Invalid parameter format: \x27" ++ p ++ "\x27. Use key=value"))

/-- `parse_parameters` in task_runner.rs. -/
def parse_parameters (params : List String) :
    Except SigilError (List (String × String)) :=
  parse_parameters_go [] params

/-- `validate_parameters` in task_runner.rs: scan the definition schema;
a required parameter that is absent from the mapping and has no default
aborts with the corresponding error. -/
def validate_parameters_go (parameters : List (String × String)) :
    List (String × TaskParameter) → Except SigilError Unit
  | [] => .ok ()
  | (param_name, param_def) :: rest =>
      if param_def.required && !(hmGet parameters param_name).isSome then
        if param_def.default_value.isNone then
          .error (.TaskExecution
            ("Required parameter \x27" ++ param_name ++ "\x27 not provided"))
        else validate_parameters_go parameters rest
      else validate_parameters_go parameters rest

/-- `validate_parameters` in task_runner.rs. -/
def validate_parameters (definition : TaskDefinition)
    (parameters : List (String × String)) : Except SigilError Unit :=
  validate_parameters_go parameters definition.parameters

/-- One scan of Rust `str::replace`: replace every leftmost
non-overlapping occurrence of `pattern` by `repl`, fuel-bounded so the
recursion is structural (fuel is instantiated with the input length,
which bounds the number of steps). -/
def replaceCharsFuel (pattern repl : List Char) : Nat → List Char → List Char
  | _, [] => []
  | 0, rest => rest
  | Nat.succ fuel, c :: cs =>
      if pattern.isPrefixOf (c :: cs) then
        repl ++ replaceCharsFuel pattern repl fuel (cs.drop (pattern.length - 1))
      else
        c :: replaceCharsFuel pattern repl fuel cs

/-- Rust `str::replace` on character lists; the program only ever calls
it with a non-empty pattern (`${key}`), and an empty pattern returns the
input unchanged. -/
def replaceChars (s pattern repl : List Char) : List Char :=
  if pattern.length = 0 then s else replaceCharsFuel pattern repl s.length s

/-- Rust `str::replace`: replace all non-overlapping occurrences of
`pattern` in `s` by `repl`, left to right. -/
def rustReplace (s pattern repl : String) : String :=
  String.mk (replaceChars s.data pattern.data repl.data)

/-- The placeholder-substitution loop shared by `execute_shell_command`
and `execute_system_command`: one plain substring-replacement pass per
key, in the mapping's iteration order, pattern `${key}`. -/
def substParams (parameters : List (String × String)) (s : String) : String :=
  parameters.foldl (fun acc kv => rustReplace acc ("$\x7b" ++ kv.1 ++ "\x7d") kv.2) s

/-- A child process the runtime is about to spawn (`std::process::Command`):
program, arguments, extra environment entries, working directory. -/
structure SpawnedCommand where
  program : String
  args : List String
  env : List (String × String)
  cwd : Option String
deriving DecidableEq

/-- Outcome of running a child process: spawn failure, or exit with a
success flag and captured stdout/stderr. -/
inductive ProcOutcome
  | spawnErr (msg : String)
  | exited (success : Bool) (stdout : String) (stderr : String)
deriving DecidableEq

/-- The process built by `execute_shell_command`: `bash -c <expanded
script>` with the definition's environment and working directory. -/
def shellSpawn (script : String) (parameters : List (String × String))
    (definition : TaskDefinition) : SpawnedCommand :=
  { program := "bash"
    args := ["-c", substParams parameters script]
    env := definition.environment.getD []
    cwd := definition.working_directory }

/-- `execute_shell_command` in task_runner.rs, with process execution as
an oracle. -/
def execute_shell_command (script : String)
    (parameters : List (String × String)) (definition : TaskDefinition)
    (run : SpawnedCommand → ProcOutcome) : Except SigilError String :=
  match run (shellSpawn script parameters definition) with
  | .spawnErr e =>
      .error (.TaskExecution ("Failed to execute shell command: " ++ e))
  | .exited true stdout _ => .ok stdout
  | .exited false _ stderr =>
      .error (.TaskExecution ("Shell command failed: " ++ stderr))

/-- The process built by `execute_system_command`: the binary name is
passed through unsubstituted, each argument is substituted independently,
no environment entries or working directory are applied. -/
def systemSpawn (command : String) (args : List String)
    (parameters : List (String × String)) : SpawnedCommand :=
  { program := command
    args := args.map (substParams parameters)
    env := []
    cwd := none }

/-- `execute_system_command` in task_runner.rs, with process execution as
an oracle. -/
def execute_system_command (command : String) (args : List String)
    (parameters : List (String × String))
    (run : SpawnedCommand → ProcOutcome) : Except SigilError String :=
  match run (systemSpawn command args parameters) with
  | .spawnErr e =>
      .error (.TaskExecution ("Failed to execute system command: " ++ e))
  | .exited true stdout _ => .ok stdout
  | .exited false _ stderr =>
      .error (.TaskExecution ("System command failed: " ++ stderr))

/-- Rust `{:?}` Debug rendering of a `HashMap<String, String>` in the
model's iteration order. -/
def formatParamsDebug (params : List (String × String)) : String :=
  "\x7b" ++ String.intercalate ", "
      (params.map fun kv => "\x22" ++ kv.1 ++ "\x22: \x22" ++ kv.2 ++ "\x22")
    ++ "\x7d"

/-- `execute_module_command` in task_runner.rs: a stub that spawns no
process and formats a descriptive string from the definition's module
parameters; the run-time resolved parameters (`_user_params`) are unused. -/
def execute_module_command (module action : String)
    (params : List (String × String))
    (_user_params : List (String × String)) : Except SigilError String :=
  .ok ("Module command executed: " ++ module ++ " " ++ action
    ++ " with params: " ++ formatParamsDebug params)

/-- The `match &definition.command` dispatch inside
`execute_task_instance`. -/
def dispatch_command (definition : TaskDefinition)
    (parameters : List (String × String))
    (run : SpawnedCommand → ProcOutcome) : Except SigilError String :=
  match definition.command with
  | .shell script => execute_shell_command script parameters definition run
  | .system command args => execute_system_command command args parameters run
  | .module m a p => execute_module_command m a p parameters

/-- Lines 312-313 of task_runner.rs: `status = Running`,
`started_at = Some(now)`. -/
def mark_running (inst : TaskInstance) (now : Nat) : TaskInstance :=
  { inst with status := .Running, started_at := some now }

/-- `execute_task_instance` in task_runner.rs: mark running, dispatch,
set `completed_at`, then record success (`Completed`/`output`) or failure
(`Failed`/`error`, propagating the error). -/
def execute_task_instance (inst : TaskInstance)
    (definition : TaskDefinition) (run : SpawnedCommand → ProcOutcome)
    (now_started now_completed : Nat) :
    TaskInstance × Except SigilError Unit :=
  let inst1 := mark_running inst now_started
  let result := dispatch_command definition inst1.parameters run
  let inst2 := { inst1 with completed_at := some now_completed }
  match result with
  | .ok output =>
      ({ inst2 with status := .Completed, output := some output }, .ok ())
  | .error e =>
      ({ inst2 with status := .Failed, error := some e.render }, .error e)

/-- One file of the state directory: filename stem, extension, and parsed
content (`none` when the record fails to read or deserialize). -/
structure FileEntry where
  stem : String
  ext : String
  content : Option TaskInstance
deriving DecidableEq

/-- The state directory's contents. -/
abbrev StateDir := List FileEntry

/-- Whether a file entry is the record `{id}.json`. -/
def instance_key (id : String) (e : FileEntry) : Bool :=
  e.stem == id && e.ext == "json"

/-- `save_task_instance` in task_runner.rs: write the record under
`{id}.json`, replacing any existing file at that path (the directory is
created first if absent, hence the caller passes the entry list). -/
def save_task_instance (inst : TaskInstance) (entries : StateDir) :
    StateDir :=
  entries.filter (fun e => !(instance_key inst.id e))
    ++ [⟨inst.id, "json", some inst⟩]

/-- `load_task_instance_by_id` in task_runner.rs: `NotFound` when the
file is absent (also when the directory itself is absent), a
deserialization error when the record fails to parse. -/
def load_task_instance_by_id (id : String) (state_dir : Option StateDir) :
    Except SigilError TaskInstance :=
  match (state_dir.getD []).find? (instance_key id) with
  | none => .error (.ResourceNotFound ("Task instance: " ++ id))
  | some e =>
      match e.content with
      | some inst => .ok inst
      | none => .error (.Serde "failed to deserialize task instance record")

/-- Loop body of `find_latest_task_instance_by_name`: json files that
deserialize and match the definition name compete on `created_at`, a
strictly greater timestamp displacing the current best. -/
def latest_step (name : String) (acc : Option TaskInstance) (e : FileEntry) :
    Option TaskInstance :=
  if e.ext = "json" then
    match e.content with
    | some inst =>
        if inst.definition_name = name then
          match acc with
          | none => some inst
          | some current =>
              if current.created_at < inst.created_at then some inst
              else acc
        else acc
    | none => acc
  else acc

/-- `find_latest_task_instance_by_name` in task_runner.rs. -/
def find_latest_task_instance_by_name (name : String)
    (state_dir : Option StateDir) : Except SigilError TaskInstance :=
  match state_dir with
  | none => .error (.ResourceNotFound ("No task instances found for: " ++ name))
  | some entries =>
      match entries.foldl (latest_step name) none with
      | some inst => .ok inst
      | none =>
          .error (.ResourceNotFound ("No task instances found for: " ++ name))

/-- The `TaskInstance` literal constructed in `run_task` (lines 148-159):
`Pending`, the parsed parameters stored as-is, `retry_count = 0`. -/
def mk_task_instance (fresh_id name : String)
    (parsed_params : List (String × String)) (now_created : Nat) :
    TaskInstance :=
  { id := fresh_id
    definition_name := name
    status := .Pending
    parameters := parsed_params
    created_at := now_created
    started_at := none
    completed_at := none
    output := none
    error := none
    retry_count := 0 }

/-- `run_task` in task_runner.rs. The definition lookup
(`load_task_definition`, a file read) is an oracle argument; clock reads
and the fresh id are explicit. Returns the final state directory and the
propagated outcome. -/
def run_task (name : String) (params : List String)
    (task_def_lookup : Except SigilError TaskDefinition) (fresh_id : String)
    (now_created now_started now_completed : Nat)
    (run : SpawnedCommand → ProcOutcome) (state_dir : Option StateDir) :
    Option StateDir × Except SigilError Unit :=
  match task_def_lookup with
  | .error e => (state_dir, .error e)
  | .ok task_def =>
      match parse_parameters params with
      | .error e => (state_dir, .error e)
      | .ok parsed_params =>
          match validate_parameters task_def parsed_params with
          | .error e => (state_dir, .error e)
          | .ok _ =>
              let task_instance :=
                mk_task_instance fresh_id name parsed_params now_created
              let dir1 := save_task_instance task_instance (state_dir.getD [])
              let step :=
                execute_task_instance task_instance task_def run
                  now_started now_completed
              let dir2 := save_task_instance step.1 dir1
              (some dir2, step.2)

/-- The successive snapshots of the instance along `run_task`'s execution
path: created `Pending`, marked `Running`, and the final state produced by
`execute_task_instance`. -/
def run_task_instance_trace (task_def : TaskDefinition) (name : String)
    (parsed_params : List (String × String)) (fresh_id : String)
    (now_created now_started now_completed : Nat)
    (run : SpawnedCommand → ProcOutcome) : List TaskInstance :=
  let i0 := mk_task_instance fresh_id name parsed_params now_created
  [i0, mark_running i0 now_started,
    (execute_task_instance i0 task_def run now_started now_completed).1]

/-- Whether a character is an ASCII hexadecimal digit
(`u8::is_ascii_hexdigit`). -/
def isHexDigitChar (c : Char) : Bool :=
  c.isDigit || ('a' ≤ c && c ≤ 'f') || ('A' ≤ c && c ≤ 'F')

/-- Lowercase an ASCII hexadecimal digit (the uuid crate renders
lowercase). -/
def hexToLower (c : Char) : Char :=
  if 'A' ≤ c && c ≤ 'F' then Char.ofNat (c.toNat + 32) else c

/-- Parse the 36-character hyphenated UUID form `8-4-4-4-12`, returning
the canonical lowercase hyphenated rendering. -/
def parseHyphenated (cs : List Char) : Option String :=
  if cs.length = 36 &&
      (List.range 36).all (fun i =>
        if i = 8 || i = 13 || i = 18 || i = 23 then cs.getD i ' ' = '-'
        else isHexDigitChar (cs.getD i ' ')) then
    some (String.mk (cs.map hexToLower))
  else none

/-- Parse the 32-character simple UUID form, returning the canonical
lowercase hyphenated rendering. -/
def parseSimple (cs : List Char) : Option String :=
  if cs.length = 32 && cs.all isHexDigitChar then
    let l := cs.map hexToLower
    some (String.mk
      (l.take 8 ++ ['-'] ++ (l.drop 8).take 4 ++ ['-'] ++ (l.drop 12).take 4
        ++ ['-'] ++ (l.drop 16).take 4 ++ ['-'] ++ l.drop 20))
  else none

/-- `Uuid::parse_str`: accepts the hyphenated (36), simple (32), braced
(38) and URN (45) forms, dispatching on length as the uuid crate does;
the result is the UUID's canonical lowercase hyphenated rendering (its
`Display`, used to key instance files). -/
def uuid_parse_str (s : String) : Option String :=
  let cs := s.data
  if cs.length = 36 then parseHyphenated cs
  else if cs.length = 32 then parseSimple cs
  else if cs.length = 38 then
    match cs with
    | c :: rest =>
        if c = Char.ofNat 123 && rest.getLast? = some (Char.ofNat 125) then
          parseHyphenated rest.dropLast
        else none
    | [] => none
  else if cs.length = 45 then
    if cs.take 9 = "urn:uuid:".data then parseHyphenated (cs.drop 9) else none
  else none

/-- `show_task_status` in task_runner.rs: an argument that parses as a
UUID is looked up by identifier, anything else by latest-instance-by-name;
the model returns the instance the command would display. -/
def show_task_status (task_id : String) (state_dir : Option StateDir) :
    Except SigilError TaskInstance :=
  match uuid_parse_str task_id with
  | some uuid => load_task_instance_by_id uuid state_dir
  | none => find_latest_task_instance_by_name task_id state_dir

/-!
Helper lemmas shared by the claim theorems.
-/

theorem hmGet_hmInsert {α : Type} (m : List (String × α)) (key : String)
    (v : α) (k : String) :
    hmGet (hmInsert m key v) k = if k = key then some v else hmGet m k := by
  induction m with
  | nil =>
      simp only [hmInsert, hmGet]
      by_cases h : k = key
      · subst h; simp
      · rw [if_neg (Ne.symm h), if_neg h]
  | cons hd tl ih =>
      obtain ⟨k', w⟩ := hd
      by_cases hk : k' = key
      · subst hk
        simp only [hmInsert, if_pos rfl, hmGet]
        by_cases h : k' = k
        · subst h; simp
        · rw [if_neg h, if_neg (Ne.symm h), if_neg h]
      · simp only [hmInsert, if_neg hk, hmGet, ih]
        by_cases h : k' = k
        · have hkk : ¬k = key := fun h' => hk (h.trans h')
          rw [if_pos h, if_neg hkk, if_pos h]
        · rw [if_neg h, if_neg h]

theorem getLast?_cons_elim {α : Type} (a : α) (l : List α) :
    (a :: l).getLast? = match l.getLast? with
      | some v => some v
      | none => some a := by
  induction l generalizing a with
  | nil => simp
  | cons b tl ih =>
      rw [List.getLast?_cons_cons, ih b]
      rcases h : tl.getLast? with _ | v <;> simp [ih b, h]

/-- The value a token assigns to key `k`, when it is a well-formed
`k=value` token. -/
def keyed_value (k : String) (t : String) : Option String :=
  match split_once_eq t with
  | some kv => if kv.1 = k then some kv.2 else none
  | none => none

theorem parse_go_ok_iff (ps : List String) :
    ∀ acc, (∃ m, parse_parameters_go acc ps = .ok m) ↔
      ∀ t ∈ ps, (split_once_eq t).isSome = true := by
  induction ps with
  | nil => intro acc; simp [parse_parameters_go]
  | cons p rest ih =>
      intro acc
      rcases h : split_once_eq p with _ | ⟨key, value⟩
      · simp only [parse_parameters_go, h]
        constructor
        · rintro ⟨m, hm⟩; cases hm
        · intro hall
          have := hall p (by simp)
          rw [h] at this
          cases this
      · simp only [parse_parameters_go, h]
        rw [ih (hmInsert acc key value)]
        constructor
        · intro hall t ht
          rcases List.mem_cons.mp ht with rfl | ht'
          · rw [h]; rfl
          · exact hall t ht'
        · intro hall t ht
          exact hall t (List.mem_cons_of_mem _ ht)

theorem parse_go_lookup (ps : List String) :
    ∀ acc m, parse_parameters_go acc ps = .ok m →
      ∀ k, hmGet m k = match (ps.filterMap (keyed_value k)).getLast? with
        | some v => some v
        | none => hmGet acc k := by
  induction ps with
  | nil =>
      intro acc m hm k
      cases hm
      simp
  | cons p rest ih =>
      intro acc m hm k
      rcases h : split_once_eq p with _ | ⟨key, value⟩
      · simp only [parse_parameters_go, h] at hm
        cases hm
      · simp only [parse_parameters_go, h] at hm
        have ihm := ih (hmInsert acc key value) m hm k
        by_cases hk : key = k
        · have hfm : (p :: rest).filterMap (keyed_value k)
              = value :: rest.filterMap (keyed_value k) := by
            simp [List.filterMap_cons, keyed_value, h, hk]
          rw [hfm, getLast?_cons_elim, ihm, hmGet_hmInsert]
          rcases hlast : (rest.filterMap (keyed_value k)).getLast? with _ | v <;>
            simp [hlast, hk.symm]
        · have hfm : (p :: rest).filterMap (keyed_value k)
              = rest.filterMap (keyed_value k) := by
            simp [List.filterMap_cons, keyed_value, h, hk]
          rw [hfm, ihm, hmGet_hmInsert]
          rcases hlast : (rest.filterMap (keyed_value k)).getLast? with _ | v
          · simp [hlast, if_neg (fun h' : k = key => hk h'.symm)]
          · simp [hlast]

theorem parse_go_err_first (pre : List String) :
    ∀ acc t post, (∀ u ∈ pre, (split_once_eq u).isSome = true) →
      split_once_eq t = none →
      parse_parameters_go acc (pre ++ t :: post)
        = .error (.TaskExecution
            ("Invalid parameter format: \x27" ++ t ++ "\x27. Use key=value")) := by
  induction pre with
  | nil =>
      intro acc t post _ ht
      simp [parse_parameters_go, ht]
  | cons u rest ih =>
      intro acc t post hall ht
      have hu := hall u (by simp)
      rcases h : split_once_eq u with _ | ⟨key, value⟩
      · rw [h] at hu; cases hu
      · simp only [List.cons_append, parse_parameters_go, h]
        exact ih _ t post (fun x hx => hall x (List.mem_cons_of_mem _ hx)) ht

/-- C4: parsing a sequence of `key=value` tokens succeeds exactly when
every token contains an `=`; on success each key is bound to the text
after the first `=` of its last occurrence (last duplicate wins, value
verbatim); the first token with no `=` aborts with a malformed-parameter
error naming that token. -/
theorem parse_parameters_spec (ps : List String) :
    ((∀ t ∈ ps, (split_once_eq t).isSome = true) ↔
      ∃ m, parse_parameters ps = .ok m)
    ∧ (∀ m, parse_parameters ps = .ok m →
        ∀ k, hmGet m k = (ps.filterMap (keyed_value k)).getLast?)
    ∧ (∀ pre t post, ps = pre ++ t :: post →
        (∀ u ∈ pre, (split_once_eq u).isSome = true) →
        split_once_eq t = none →
        parse_parameters ps = .error (.TaskExecution
          ("Invalid parameter format: \x27" ++ t ++ "\x27. Use key=value"))) := by
  refine ⟨(parse_go_ok_iff ps []).symm, ?_, ?_⟩
  · intro m hm k
    have := parse_go_lookup ps [] m hm k
    rw [this]
    rcases hlast : (ps.filterMap (keyed_value k)).getLast? with _ | v <;>
      simp [hlast, hmGet]
  · intro pre t post hps hall ht
    subst hps
    exact parse_go_err_first pre [] t post hall ht

/-- Witness for C4 at a concrete token sequence with a duplicate key and
a value containing `=`. -/
theorem parse_parameters_spec_witness :
    parse_parameters ["a=1", "a=2", "b=x=y"] = .ok [("a", "2"), ("b", "x=y")]
    ∧ hmGet [("a", "2"), ("b", "x=y")] "a"
        = (["a=1", "a=2", "b=x=y"].filterMap (keyed_value "a")).getLast?
    ∧ split_once_eq "noeq" = none
    ∧ parse_parameters ["a=1", "noeq"] = .error (.TaskExecution
        ("Invalid parameter format: \x27noeq\x27. Use key=value")) :=
  ⟨rfl, (parse_parameters_spec ["a=1", "a=2", "b=x=y"]).2.1 _ rfl "a", rfl,
    (parse_parameters_spec ["a=1", "noeq"]).2.2 ["a=1"] "noeq" [] rfl
      (by intro u hu; simp at hu; subst hu; rfl) rfl⟩

theorem validate_go_ok_iff (sch : List (String × TaskParameter))
    (pp : List (String × String)) :
    validate_parameters_go pp sch = .ok () ↔
      ∀ e ∈ sch, e.2.required = true → e.2.default_value = none →
        (hmGet pp e.1).isSome = true := by
  induction sch with
  | nil => simp [validate_parameters_go]
  | cons hd rest ih =>
      obtain ⟨n, pd⟩ := hd
      simp only [validate_parameters_go]
      by_cases hb : (pd.required && !(hmGet pp n).isSome) = true
      · rw [if_pos hb]
        have hreq : pd.required = true := by
          cases hr : pd.required
          · rw [hr] at hb; cases hb
          · rfl
        have hnotsome : (hmGet pp n).isSome = false := by
          cases hi : (hmGet pp n).isSome
          · rfl
          · rw [hreq, hi] at hb; cases hb
        by_cases hd2 : pd.default_value.isNone = true
        · rw [if_pos hd2]
          constructor
          · intro hcontra; cases hcontra
          · intro hall
            have := hall (n, pd) (by simp) hreq
              (Option.isNone_iff_eq_none.mp hd2)
            rw [hnotsome] at this; cases this
        · rw [if_neg hd2, ih]
          constructor
          · intro hall e he hr hdv
            rcases List.mem_cons.mp he with rfl | he'
            · exact absurd (Option.isNone_iff_eq_none.mpr hdv)
                (by simpa using hd2)
            · exact hall e he' hr hdv
          · intro hall e he
            exact hall e (List.mem_cons_of_mem _ he)
      · rw [if_neg hb, ih]
        constructor
        · intro hall e he hr hdv
          rcases List.mem_cons.mp he with rfl | he'
          · cases hi : (hmGet pp n).isSome
            · exact absurd (by
                have hr' : pd.required = true := hr
                rw [hr', hi]; rfl) hb
            · rfl
          · exact hall e he' hr hdv
        · intro hall e he
          exact hall e (List.mem_cons_of_mem _ he)

theorem validate_go_err (sch : List (String × TaskParameter))
    (pp : List (String × String)) (err : SigilError) :
    validate_parameters_go pp sch = .error err →
      ∃ e ∈ sch, e.2.required = true ∧ e.2.default_value = none
        ∧ hmGet pp e.1 = none
        ∧ err = .TaskExecution
            ("Required parameter \x27" ++ e.1 ++ "\x27 not provided") := by
  induction sch with
  | nil => intro h; cases h
  | cons hd rest ih =>
      obtain ⟨n, pd⟩ := hd
      simp only [validate_parameters_go]
      by_cases hb : (pd.required && !(hmGet pp n).isSome) = true
      · rw [if_pos hb]
        by_cases hd2 : pd.default_value.isNone = true
        · rw [if_pos hd2]
          intro h
          injection h with h'
          have hreq : pd.required = true := by
            cases hr : pd.required
            · rw [hr] at hb; cases hb
            · rfl
          refine ⟨(n, pd), by simp, hreq,
            Option.isNone_iff_eq_none.mp hd2, ?_, h'.symm⟩
          cases hg : hmGet pp n
          · rfl
          · rw [hreq, hg] at hb; cases hb
        · rw [if_neg hd2]
          intro h
          obtain ⟨e, he, hprops⟩ := ih h
          exact ⟨e, List.mem_cons_of_mem _ he, hprops⟩
      · rw [if_neg hb]
        intro h
        obtain ⟨e, he, hprops⟩ := ih h
        exact ⟨e, List.mem_cons_of_mem _ he, hprops⟩

/-- C3: validation fails with a missing-required-parameter error naming
the parameter exactly when some schema entry is required, has no default,
and is absent from the mapping; extra keys never cause failure
(validation is monotone in the supplied keys); and a lookup or validation
error aborts `run_task` before any instance is created or persisted (the
state directory is returned unchanged). -/
theorem validate_parameters_spec (d : TaskDefinition)
    (pp : List (String × String)) :
    (validate_parameters d pp = .ok () ↔
      ∀ e ∈ d.parameters, e.2.required = true → e.2.default_value = none →
        (hmGet pp e.1).isSome = true)
    ∧ (∀ err, validate_parameters d pp = .error err →
        ∃ e ∈ d.parameters, e.2.required = true ∧ e.2.default_value = none
          ∧ hmGet pp e.1 = none
          ∧ err = .TaskExecution
              ("Required parameter \x27" ++ e.1 ++ "\x27 not provided"))
    ∧ (∀ pp', (∀ k, (hmGet pp k).isSome = true → (hmGet pp' k).isSome = true) →
        validate_parameters d pp = .ok () → validate_parameters d pp' = .ok ())
    ∧ (∀ name params fresh_id nc ns ne run sd err,
        (run_task name params (.error err) fresh_id nc ns ne run sd
          = (sd, .error err))
        ∧ (parse_parameters params = .ok pp →
            validate_parameters d pp = .error err →
            run_task name params (.ok d) fresh_id nc ns ne run sd
              = (sd, .error err))) := by
  refine ⟨validate_go_ok_iff d.parameters pp, validate_go_err d.parameters pp,
    ?_, ?_⟩
  · intro pp' hmono hok
    rw [validate_parameters, validate_go_ok_iff] at hok ⊢
    exact fun e he hr hdv => hmono e.1 (hok e he hr hdv)
  · intro name params fresh_id nc ns ne run sd err
    constructor
    · rfl
    · intro hp hv
      simp [run_task, hp, hv]

/-- Witness for C3: a schema with one required, default-free parameter
rejects the empty mapping with the error naming it, and the run aborts
with the state directory untouched. -/
theorem validate_parameters_spec_witness :
    validate_parameters
        ⟨"deploy", none, .shell "ls", [("target",
          ⟨"target host", true, none, .String⟩)], none, none, none, none⟩ []
      = .error (.TaskExecution "Required parameter \x27target\x27 not provided")
    ∧ parse_parameters [] = .ok []
    ∧ run_task "deploy" []
        (.ok ⟨"deploy", none, .shell "ls", [("target",
          ⟨"target host", true, none, .String⟩)], none, none, none, none⟩)
        "id0" 0 1 2 (fun _ => .exited true "" "") none
      = (none, .error
          (.TaskExecution "Required parameter \x27target\x27 not provided")) :=
  ⟨rfl, rfl,
    ((validate_parameters_spec
        ⟨"deploy", none, .shell "ls", [("target",
          ⟨"target host", true, none, .String⟩)], none, none, none, none⟩
        []).2.2.2 "deploy" [] "id0" 0 1 2 (fun _ => .exited true "" "") none
        (.TaskExecution "Required parameter \x27target\x27 not provided")).2
      rfl rfl⟩

/-- A file entry holds a deserializable record for definition `name`. -/
def entry_matches (name : String) (e : FileEntry) (i : TaskInstance) : Prop :=
  e.ext = "json" ∧ e.content = some i ∧ i.definition_name = name

theorem latest_step_cases (name : String) (acc : Option TaskInstance)
    (e : FileEntry) :
    latest_step name acc e = acc ∨
      ∃ i, entry_matches name e i ∧ latest_step name acc e = some i := by
  by_cases hext : e.ext = "json"
  · rcases hc : e.content with _ | i
    · exact Or.inl (by simp [latest_step, hext, hc])
    · by_cases hn : i.definition_name = name
      · rcases acc with _ | current
        · exact Or.inr ⟨i, ⟨hext, hc, hn⟩, by simp [latest_step, hext, hc, hn]⟩
        · by_cases hlt : current.created_at < i.created_at
          · exact Or.inr ⟨i, ⟨hext, hc, hn⟩,
              by simp [latest_step, hext, hc, hn, hlt]⟩
          · exact Or.inl (by simp [latest_step, hext, hc, hn, hlt])
      · exact Or.inl (by simp [latest_step, hext, hc, hn])
  · exact Or.inl (by simp [latest_step, hext])

theorem latest_step_mono (name : String) (acc : Option TaskInstance)
    (e : FileEntry) (x : TaskInstance) (hx : acc = some x) :
    ∃ y, latest_step name acc e = some y ∧ x.created_at ≤ y.created_at := by
  subst hx
  by_cases hext : e.ext = "json"
  · rcases hc : e.content with _ | i
    · exact ⟨x, by simp [latest_step, hext, hc], le_refl _⟩
    · by_cases hn : i.definition_name = name
      · by_cases hlt : x.created_at < i.created_at
        · exact ⟨i, by simp [latest_step, hext, hc, hn, hlt], le_of_lt hlt⟩
        · exact ⟨x, by simp [latest_step, hext, hc, hn, hlt], le_refl _⟩
      · exact ⟨x, by simp [latest_step, hext, hc, hn], le_refl _⟩
  · exact ⟨x, by simp [latest_step, hext], le_refl _⟩

theorem latest_step_covers (name : String) (acc : Option TaskInstance)
    (e : FileEntry) (i : TaskInstance) (hm : entry_matches name e i) :
    ∃ y, latest_step name acc e = some y ∧ i.created_at ≤ y.created_at := by
  obtain ⟨hext, hc, hn⟩ := hm
  rcases acc with _ | current
  · exact ⟨i, by simp [latest_step, hext, hc, hn], le_refl _⟩
  · by_cases hlt : current.created_at < i.created_at
    · exact ⟨i, by simp [latest_step, hext, hc, hn, hlt], le_refl _⟩
    · exact ⟨current, by simp [latest_step, hext, hc, hn, hlt],
        le_of_not_lt hlt⟩

theorem foldl_latest_name (name : String) (entries : List FileEntry) :
    ∀ acc, (∀ x, acc = some x → x.definition_name = name) →
      ∀ b, entries.foldl (latest_step name) acc = some b →
        b.definition_name = name := by
  induction entries with
  | nil => intro acc hinv b hb; exact hinv b hb
  | cons e rest ih =>
      intro acc hinv b hb
      refine ih (latest_step name acc e) ?_ b hb
      intro x hx
      rcases latest_step_cases name acc e with hsame | ⟨i, hm, hstep⟩
      · exact hinv x (hsame.symm.trans hx)
      · rw [hstep] at hx
        injection hx with hx'
        exact hx' ▸ hm.2.2

theorem foldl_latest_mono (name : String) (entries : List FileEntry) :
    ∀ acc x, acc = some x →
      ∃ y, entries.foldl (latest_step name) acc = some y ∧
        x.created_at ≤ y.created_at := by
  induction entries with
  | nil => intro acc x hx; exact ⟨x, hx, le_refl _⟩
  | cons e rest ih =>
      intro acc x hx
      obtain ⟨y, hy, hxy⟩ := latest_step_mono name acc e x hx
      obtain ⟨z, hz, hyz⟩ := ih (latest_step name acc e) y hy
      exact ⟨z, hz, le_trans hxy hyz⟩

theorem foldl_latest_mem (name : String) (entries : List FileEntry) :
    ∀ acc b, entries.foldl (latest_step name) acc = some b →
      acc = some b ∨ ∃ e ∈ entries, entry_matches name e b := by
  induction entries with
  | nil => intro acc b hb; exact Or.inl hb
  | cons e rest ih =>
      intro acc b hb
      rcases ih (latest_step name acc e) b hb with hstep | ⟨e', he', hm⟩
      · rcases latest_step_cases name acc e with hsame | ⟨i, hm, hi⟩
        · exact Or.inl (hsame.symm.trans hstep)
        · rw [hi] at hstep
          injection hstep with hib
          exact Or.inr ⟨e, by simp, hib ▸ hm⟩
      · exact Or.inr ⟨e', List.mem_cons_of_mem _ he', hm⟩

theorem foldl_latest_max (name : String) (entries : List FileEntry) :
    ∀ acc b, entries.foldl (latest_step name) acc = some b →
      ∀ e ∈ entries, ∀ i, entry_matches name e i →
        i.created_at ≤ b.created_at := by
  induction entries with
  | nil => intro acc b _ e he; cases he
  | cons e0 rest ih =>
      intro acc b hb e he i hm
      rcases List.mem_cons.mp he with rfl | he'
      · obtain ⟨y, hy, hiy⟩ := latest_step_covers name acc e i hm
        obtain ⟨z, hz, hyz⟩ := foldl_latest_mono name rest _ y hy
        rw [List.foldl_cons] at hb
        rw [hb] at hz
        injection hz with hzb
        rw [hzb]
        exact le_trans hiy hyz
      · exact ih (latest_step name acc e0) b hb e he' i hm

theorem foldl_latest_none_iff (name : String) (entries : List FileEntry) :
    ∀ acc, entries.foldl (latest_step name) acc = none ↔
      acc = none ∧ ∀ e ∈ entries, ∀ i, ¬entry_matches name e i := by
  induction entries with
  | nil => intro acc; simp
  | cons e rest ih =>
      intro acc
      rw [List.foldl_cons, ih]
      constructor
      · rintro ⟨hstep, hrest⟩
        have hacc : acc = none := by
          rcases latest_step_cases name acc e with hsame | ⟨i, _, hi⟩
          · exact hsame.symm.trans hstep
          · rw [hi] at hstep; cases hstep
        have hnoe : ∀ i, ¬entry_matches name e i := by
          intro i hm
          obtain ⟨y, hy, _⟩ := latest_step_covers name acc e i hm
          rw [hy] at hstep; cases hstep
        refine ⟨hacc, ?_⟩
        intro e' he' i
        rcases List.mem_cons.mp he' with rfl | he''
        · exact hnoe i
        · exact hrest e' he'' i
      · rintro ⟨hacc, hall⟩
        have hstep : latest_step name acc e = none := by
          rcases latest_step_cases name acc e with hsame | ⟨i, hm, _⟩
          · exact hsame.trans hacc
          · exact absurd hm (hall e (by simp) i)
        exact ⟨hstep, fun e' he' i => hall e' (List.mem_cons_of_mem _ he') i⟩

/-- C6: `findLatestByName` returns an instance matching the queried name
whose `created_at` is maximal among entries that deserialize and match;
it fails with `NotFound` exactly when no deserializable record matches
(malformed records are skipped, never fatal), and a missing state
directory also yields `NotFound`. -/
theorem find_latest_task_instance_by_name_spec (name : String)
    (sd : Option StateDir) :
    (sd = none → find_latest_task_instance_by_name name sd
        = .error (.ResourceNotFound ("No task instances found for: " ++ name)))
    ∧ (∀ entries, sd = some entries →
        (∀ inst, find_latest_task_instance_by_name name sd = .ok inst →
            inst.definition_name = name
            ∧ (∃ e ∈ entries, entry_matches name e inst)
            ∧ ∀ e ∈ entries, ∀ i, entry_matches name e i →
                i.created_at ≤ inst.created_at)
        ∧ (find_latest_task_instance_by_name name sd
              = .error (.ResourceNotFound
                  ("No task instances found for: " ++ name))
            ↔ ∀ e ∈ entries, ∀ i, ¬entry_matches name e i)) := by
  constructor
  · intro h; subst h; rfl
  · intro entries h
    subst h
    constructor
    · intro inst hinst
      simp only [find_latest_task_instance_by_name] at hinst
      rcases hf : entries.foldl (latest_step name) none with _ | b
      · rw [hf] at hinst; cases hinst
      · rw [hf] at hinst
        injection hinst with hb
        subst hb
        refine ⟨foldl_latest_name name entries none (by intro x hx; cases hx)
            b hf, ?_, foldl_latest_max name entries none b hf⟩
        rcases foldl_latest_mem name entries none b hf with hcontra | hmem
        · cases hcontra
        · exact hmem
    · simp only [find_latest_task_instance_by_name]
      rcases hf : entries.foldl (latest_step name) none with _ | b
      · constructor
        · intro _
          exact ((foldl_latest_none_iff name entries none).mp hf).2
        · intro _; rfl
      · constructor
        · intro hcontra; cases hcontra
        · intro hall
          have hn : entries.foldl (latest_step name) none = none :=
            (foldl_latest_none_iff name entries none).mpr ⟨rfl, hall⟩
          rw [hf] at hn; cases hn

theorem find?_filter_not_key (id : String) (l : StateDir) :
    (l.filter (fun e => !(instance_key id e))).find? (instance_key id)
      = none := by
  induction l with
  | nil => rfl
  | cons e rest ih =>
      cases hk : instance_key id e
      · simp [List.filter_cons, hk, List.find?_cons, ih]
      · simp [List.filter_cons, hk, ih]

theorem find?_append_of_none {α : Type} (p : α → Bool) (l₁ l₂ : List α)
    (h : l₁.find? p = none) : (l₁ ++ l₂).find? p = l₂.find? p := by
  induction l₁ with
  | nil => rfl
  | cons a rest ih =>
      cases ha : p a
      · rw [List.cons_append, List.find?_cons_of_neg _ (by simp [ha])]
        rw [List.find?_cons_of_neg _ (by simp [ha])] at h
        exact ih h
      · rw [List.find?_cons_of_pos _ ha] at h
        cases h

/-- C7: saving an instance and loading it back by its identifier returns
the instance unchanged, and a save fully replaces any prior record under
the same identifier (every entry of the saved directory keyed by that
identifier is the new record). -/
theorem save_then_load_roundtrip (inst : TaskInstance) (entries : StateDir) :
    load_task_instance_by_id inst.id (some (save_task_instance inst entries))
      = .ok inst
    ∧ ∀ e ∈ save_task_instance inst entries,
        instance_key inst.id e = true → e = ⟨inst.id, "json", some inst⟩ := by
  constructor
  · unfold load_task_instance_by_id save_task_instance
    rw [Option.getD_some,
      find?_append_of_none _ _ _ (find?_filter_not_key inst.id entries)]
    rw [List.find?_cons_of_pos _ (by simp [instance_key])]
  · intro e he hk
    rcases List.mem_append.mp he with h1 | h2
    · have := (List.mem_filter.mp h1).2
      rw [hk] at this
      cases this
    · simpa using h2

/-- Witness for C7: the round trip at a concrete instance, over a state
directory already containing a different record under the same
identifier, which the save replaces. -/
theorem save_then_load_roundtrip_witness :
    load_task_instance_by_id "u-1"
        (some (save_task_instance
          ⟨"u-1", "t", .Completed, [], 5, none, none, some "new", none, 0⟩
          [⟨"u-1", "json",
            some ⟨"u-1", "t", .Failed, [], 3, none, none, none, some "old", 0⟩⟩]))
      = .ok ⟨"u-1", "t", .Completed, [], 5, none, none, some "new", none, 0⟩
    ∧ (⟨"u-1", "json",
          some ⟨"u-1", "t", .Completed, [], 5, none, none, some "new", none, 0⟩⟩
        : FileEntry)
      = ⟨"u-1", "json",
          some ⟨"u-1", "t", .Completed, [], 5, none, none, some "new", none, 0⟩⟩ :=
  ⟨(save_then_load_roundtrip
      ⟨"u-1", "t", .Completed, [], 5, none, none, some "new", none, 0⟩
      [⟨"u-1", "json",
        some ⟨"u-1", "t", .Failed, [], 3, none, none, none, some "old", 0⟩⟩]).1,
    (save_then_load_roundtrip
      ⟨"u-1", "t", .Completed, [], 5, none, none, some "new", none, 0⟩
      [⟨"u-1", "json",
        some ⟨"u-1", "t", .Failed, [], 3, none, none, none, some "old", 0⟩⟩]).2
      _ (by simp [save_task_instance, instance_key]) (by simp [instance_key])⟩

/-- Witness for C6: over a directory holding a malformed record, a record
for another definition, and two records for `"t"` created at 5 and 9, the
lookup returns the one created at 9, and its fields satisfy the spec. -/
theorem find_latest_task_instance_by_name_spec_witness :
    find_latest_task_instance_by_name "t"
        (some [⟨"bad", "json", none⟩,
          ⟨"u-0", "json", some ⟨"u-0", "other", .Completed, [], 7, none, none, none, none, 0⟩⟩,
          ⟨"u-1", "json", some ⟨"u-1", "t", .Completed, [], 5, none, none, none, none, 0⟩⟩,
          ⟨"u-2", "json", some ⟨"u-2", "t", .Failed, [], 9, none, none, none, some "e", 0⟩⟩])
      = .ok ⟨"u-2", "t", .Failed, [], 9, none, none, none, some "e", 0⟩
    ∧ (⟨"u-2", "t", .Failed, [], 9, none, none, none, some "e", 0⟩
        : TaskInstance).definition_name = "t"
    ∧ find_latest_task_instance_by_name "nosuch" none
      = .error (.ResourceNotFound "No task instances found for: nosuch") :=
  ⟨rfl,
    (((find_latest_task_instance_by_name_spec "t"
        (some [⟨"bad", "json", none⟩,
          ⟨"u-0", "json", some ⟨"u-0", "other", .Completed, [], 7, none, none, none, none, 0⟩⟩,
          ⟨"u-1", "json", some ⟨"u-1", "t", .Completed, [], 5, none, none, none, none, 0⟩⟩,
          ⟨"u-2", "json", some ⟨"u-2", "t", .Failed, [], 9, none, none, none, some "e", 0⟩⟩])).2
        _ rfl).1 _ rfl).1,
    (find_latest_task_instance_by_name_spec "nosuch" none).1 rfl⟩

/-- C2: once dispatch is reached, the final instance has `completed_at`
set and is persisted unconditionally (the second save happens in both
outcomes, before any error propagates); on dispatch success it is
`Completed` with `output` set to the captured stdout and `error` unset,
on dispatch failure it is `Failed` with `error` set and `output` unset. -/
theorem run_task_final_persisted_state (name : String) (params : List String)
    (d : TaskDefinition) (pp : List (String × String)) (fresh_id : String)
    (nc ns ne : Nat) (run : SpawnedCommand → ProcOutcome)
    (sd : Option StateDir) (hp : parse_parameters params = .ok pp)
    (hv : validate_parameters d pp = .ok ()) :
    run_task name params (.ok d) fresh_id nc ns ne run sd
      = (some (save_task_instance
            (execute_task_instance (mk_task_instance fresh_id name pp nc)
              d run ns ne).1
            (save_task_instance (mk_task_instance fresh_id name pp nc)
              (sd.getD []))),
          (execute_task_instance (mk_task_instance fresh_id name pp nc)
            d run ns ne).2)
    ∧ (execute_task_instance (mk_task_instance fresh_id name pp nc)
        d run ns ne).1.completed_at = some ne
    ∧ (∀ out, dispatch_command d pp run = .ok out →
        (execute_task_instance (mk_task_instance fresh_id name pp nc)
            d run ns ne).1.status = .Completed
        ∧ (execute_task_instance (mk_task_instance fresh_id name pp nc)
            d run ns ne).1.output = some out
        ∧ (execute_task_instance (mk_task_instance fresh_id name pp nc)
            d run ns ne).1.error = none
        ∧ (execute_task_instance (mk_task_instance fresh_id name pp nc)
            d run ns ne).2 = .ok ())
    ∧ (∀ err, dispatch_command d pp run = .error err →
        (execute_task_instance (mk_task_instance fresh_id name pp nc)
            d run ns ne).1.status = .Failed
        ∧ (execute_task_instance (mk_task_instance fresh_id name pp nc)
            d run ns ne).1.error = some err.render
        ∧ (execute_task_instance (mk_task_instance fresh_id name pp nc)
            d run ns ne).1.output = none
        ∧ (execute_task_instance (mk_task_instance fresh_id name pp nc)
            d run ns ne).2 = .error err) := by
  refine ⟨by simp [run_task, hp, hv], ?_, ?_, ?_⟩
  · rcases hdc : dispatch_command d pp run with err | out <;>
      simp [execute_task_instance, mark_running, mk_task_instance, hdc]
  · intro out hdc
    simp [execute_task_instance, mark_running, mk_task_instance, hdc]
  · intro err hdc
    simp [execute_task_instance, mark_running, mk_task_instance, hdc]

/-- Witness for C2 at a concrete shell task whose process succeeds. -/
theorem run_task_final_persisted_state_witness :
    parse_parameters [] = .ok []
    ∧ validate_parameters
        ⟨"t", none, .shell "echo hi", [], none, none, none, none⟩ [] = .ok ()
    ∧ (execute_task_instance (mk_task_instance "id0" "t" [] 0)
        ⟨"t", none, .shell "echo hi", [], none, none, none, none⟩
        (fun _ => .exited true "hi" "") 1 2).1.completed_at = some 2 :=
  ⟨rfl, rfl,
    (run_task_final_persisted_state "t" []
      ⟨"t", none, .shell "echo hi", [], none, none, none, none⟩ []
      "id0" 0 1 2 (fun _ => .exited true "hi" "") none rfl rfl).2.1⟩

/-- C8: every snapshot of the instance along the execution path has a
status among Pending, Running, Completed, Failed — never Cancelled or
Retrying — and its `retry_count` stays 0 from creation through the end of
the run, failing runs included. -/
theorem run_task_status_invariant (task_def : TaskDefinition) (name : String)
    (pp : List (String × String)) (fresh_id : String) (nc ns ne : Nat)
    (run : SpawnedCommand → ProcOutcome) :
    ∀ inst ∈ run_task_instance_trace task_def name pp fresh_id nc ns ne run,
      (inst.status = .Pending ∨ inst.status = .Running ∨
        inst.status = .Completed ∨ inst.status = .Failed)
      ∧ inst.status ≠ .Cancelled ∧ inst.status ≠ .Retrying
      ∧ inst.retry_count = 0 := by
  intro inst hmem
  simp only [run_task_instance_trace, List.mem_cons, List.not_mem_nil,
    or_false] at hmem
  rcases hmem with rfl | rfl | rfl
  · exact ⟨Or.inl rfl, by simp [mk_task_instance],
      by simp [mk_task_instance], rfl⟩
  · exact ⟨Or.inr (Or.inl rfl), by simp [mark_running],
      by simp [mark_running], rfl⟩
  · rcases hdc : dispatch_command task_def pp run with err | out
    · refine ⟨Or.inr (Or.inr (Or.inr ?_)), ?_, ?_, ?_⟩ <;>
        simp [execute_task_instance, mark_running, mk_task_instance, hdc]
    · refine ⟨Or.inr (Or.inr (Or.inl ?_)), ?_, ?_, ?_⟩ <;>
        simp [execute_task_instance, mark_running, mk_task_instance, hdc]

/-- Witness for C8: the freshly created instance is on the trace with
`retry_count` 0, for a concrete failing run. -/
theorem run_task_status_invariant_witness :
    (mk_task_instance "id0" "t" [] 0) ∈
      run_task_instance_trace
        ⟨"t", none, .shell "boom", [], none, none, none, none⟩
        "t" [] "id0" 0 1 2 (fun _ => .exited false "" "oops")
    ∧ (mk_task_instance "id0" "t" [] 0).retry_count = 0 :=
  ⟨by simp [run_task_instance_trace],
    (run_task_status_invariant
      ⟨"t", none, .shell "boom", [], none, none, none, none⟩
      "t" [] "id0" 0 1 2 (fun _ => .exited false "" "oops")
      (mk_task_instance "id0" "t" [] 0)
      (by simp [run_task_instance_trace])).2.2.2⟩

/-- C5: substitution replaces, one plain substring-replacement pass per
key in the mapping's iteration order, every occurrence of `${key}` by the
key's value; the Shell variant applies it to the script handed to
`bash -c`, the System variant applies it to each argument independently
while the binary name is passed through unsubstituted. -/
theorem substitution_spec (script command : String) (args : List String)
    (parameters : List (String × String)) (definition : TaskDefinition)
    (k v s : String) :
    shellSpawn script parameters definition
      = ⟨"bash", ["-c", substParams parameters script],
          definition.environment.getD [], definition.working_directory⟩
    ∧ systemSpawn command args parameters
      = ⟨command, args.map (substParams parameters), [], none⟩
    ∧ (systemSpawn command args parameters).program = command
    ∧ substParams [] s = s
    ∧ substParams ((k, v) :: parameters) s
        = substParams parameters (rustReplace s ("$\x7b" ++ k ++ "\x7d") v)
    ∧ substParams [("name", "world")] "hello $\x7bname\x7d and $\x7bname\x7d"
        = "hello world and world" :=
  ⟨rfl, rfl, rfl, rfl, rfl, rfl⟩

/-- C9: the Module variant spawns no process and always succeeds,
returning a string formatted from the module name, the action, and the
definition's own parameter mapping; the run-time resolved parameters are
ignored (the result is identical for any two of them). -/
theorem execute_module_command_spec (module action : String)
    (params user_params other_params : List (String × String)) :
    execute_module_command module action params user_params
      = .ok ("Module command executed: " ++ module ++ " " ++ action
          ++ " with params: " ++ formatParamsDebug params)
    ∧ execute_module_command module action params user_params
      = execute_module_command module action params other_params :=
  ⟨rfl, rfl⟩

/-- C10: a status argument that parses as a UUID is looked up only by
identifier (NotFound when no record exists for it) and the by-name path
is never consulted; a non-UUID argument goes to latest-instance-by-name.
A definition name that is itself a valid UUID string therefore never
reaches the name-based lookup. -/
theorem show_task_status_dispatch (task_id : String) (sd : Option StateDir) :
    (∀ u, uuid_parse_str task_id = some u →
      show_task_status task_id sd = load_task_instance_by_id u sd
      ∧ ((sd.getD []).find? (instance_key u) = none →
          show_task_status task_id sd
            = .error (.ResourceNotFound ("Task instance: " ++ u))))
    ∧ (uuid_parse_str task_id = none →
        show_task_status task_id sd
          = find_latest_task_instance_by_name task_id sd) := by
  constructor
  · intro u hu
    constructor
    · simp [show_task_status, hu]
    · intro hfind
      simp [show_task_status, hu, load_task_instance_by_id, hfind]
  · intro hu
    simp [show_task_status, hu]

/-- Witness for C10: a UUID-shaped argument resolves by identifier and
fails NotFound over an empty directory; a plain name goes to the by-name
lookup. -/
theorem show_task_status_dispatch_witness :
    uuid_parse_str "123e4567-e89b-12d3-a456-426614174000"
      = some "123e4567-e89b-12d3-a456-426614174000"
    ∧ show_task_status "123e4567-e89b-12d3-a456-426614174000" (some [])
      = .error (.ResourceNotFound
          "Task instance: 123e4567-e89b-12d3-a456-426614174000")
    ∧ uuid_parse_str "greet" = none
    ∧ show_task_status "greet" (some [])
      = find_latest_task_instance_by_name "greet" (some []) :=
  ⟨rfl,
    ((show_task_status_dispatch "123e4567-e89b-12d3-a456-426614174000"
        (some [])).1 _ rfl).2 rfl,
    rfl,
    (show_task_status_dispatch "greet" (some [])).2 rfl⟩

/-- C1 (code bug): `run_task` stores the parsed parameters into the
instance without merging schema defaults (line 152 of task_runner.rs), so
for the `"greet"` scenario a run with no caller-supplied parameters has
an empty resolved mapping, the default for `message` is absent from it,
and the script handed to `bash -c` still carries the raw `${message}`
placeholder instead of the `echo "Hello World"` the merged default would
produce; the `message=Hi` run does substitute to `echo "Hi"`. -/
theorem greet_run_defaults_not_merged :
    parse_parameters [] = .ok []
    ∧ (mk_task_instance "id0" "greet" [] 0).parameters = []
    ∧ hmGet (mk_task_instance "id0" "greet" [] 0).parameters "message" = none
    ∧ validate_parameters
        ⟨"greet", none, .shell "echo \"$\x7bmessage\x7d\"",
          [("message",
            ⟨"Message to display", false, some "Hello World", .String⟩)],
          some 60, some 3, none, none⟩ [] = .ok ()
    ∧ shellSpawn "echo \"$\x7bmessage\x7d\"" []
        ⟨"greet", none, .shell "echo \"$\x7bmessage\x7d\"",
          [("message",
            ⟨"Message to display", false, some "Hello World", .String⟩)],
          some 60, some 3, none, none⟩
      = ⟨"bash", ["-c", "echo \"$\x7bmessage\x7d\""], [], none⟩
    ∧ "echo \"$\x7bmessage\x7d\"" ≠ "echo \"Hello World\""
    ∧ substParams [("message", "Hello World")] "echo \"$\x7bmessage\x7d\""
        = "echo \"Hello World\""
    ∧ parse_parameters ["message=Hi"] = .ok [("message", "Hi")]
    ∧ substParams [("message", "Hi")] "echo \"$\x7bmessage\x7d\""
        = "echo \"Hi\"" := by
  refine ⟨rfl, rfl, rfl, rfl, rfl, ?_, rfl, rfl, rfl⟩
  decide
